import Mathlib

/-
Shallow embedding of the near-registrar contract (CrossChainLabs/near-registrar).

Sources:
  - src/src/lib.rs             : the current revision; its `bid`, `reveal` and
    `withdraw` are the active implementations (its `claim` is commented out).
  - src/contracts/rust/src/lib.rs : the earlier revision; its `claim` is the
    only active `claim` in the repository and is embedded here.

Modelling decisions (documented once, used throughout):
  - AccountId is String, Balance (u128) and BlockHeight (u64) are Nat.  Block
    arithmetic `current - start` is Nat truncated subtraction; the ledger
    supplies a monotone counter so `current >= start` on every reachable path.
  - near_sdk::collections::UnorderedMap / std HashMap are modelled as
    association lists with `lookupA` / `insertA` (insert overwrites the first
    binding of the key).  `UnorderedMap::get` returns an owned, deserialized
    copy of the value: a field assignment on that copy (as in
    `bid.amount = masked_amount` in reveal, or `bid.amount = 0` in withdraw)
    is NOT written back to the map unless the code calls `insert` again, and
    the embedded functions reproduce exactly the inserts the source performs.
  - `UnorderedMap::insert` writes through to contract storage, so an insert
    performed on a fetched Auction persists; this is modelled by re-inserting
    the updated Auction into the registrar map.
  - The commitment bytes (Vec<u8>) are modelled as a String (the source
    compares them through str::from_utf8 and tests only emptiness and
    equality).  The bs58 encoding of `masked_amount.to_string() + salt` is a
    black-box injective encoder, passed in as a parameter `enc`; likewise
    DefaultHasher is an abstract `hashFn : String -> Nat`.
  - Value movement (Promise::transfer) is returned as an explicit list of
    (recipient, amount) pairs; entity creation in `claim` is returned as an
    optional (account_id, public_key) pair.
-/

/-- Association-list lookup, first binding wins (models map lookup). -/
def lookupA {α : Type} : List (String × α) → String → Option α
  | [], _ => none
  | (k, v) :: t, key => if k = key then some v else lookupA t key

/-- Association-list insert: overwrite the first binding of the key, or
append a fresh binding (models UnorderedMap/HashMap insert). -/
def insertA {α : Type} : List (String × α) → String → α → List (String × α)
  | [], key, v => [(key, v)]
  | (k, w) :: t, key, v => if k = key then (key, v) :: t else (k, w) :: insertA t key v

/-- Bid record: `struct Bid { amount: Balance, commitment: Vec<u8> }`. -/
structure Bid where
  amount : Nat
  commitment : String
deriving DecidableEq

/-- Auction record: `struct Auction { start_block_height, bids, reveals }`. -/
structure Auction where
  start_block_height : Nat
  bids : List (String × Bid)
  reveals : List (String × Nat)
deriving DecidableEq

/-- Registrar state: `struct Registrar { start_block_height, auction_period,
reveal_period, auctions }`. -/
structure Registrar where
  start_block_height : Nat
  auction_period : Nat
  reveal_period : Nat
  auctions : List (String × Auction)
deriving DecidableEq

/-- The `empty_bid` local of the source (`Bid { amount: 0, commitment: Vec::new() }`). -/
def emptyBid : Bid := ⟨0, ""⟩

/-- The `empty_auction` local of the source (start 0, empty maps). -/
def emptyAuction : Auction := ⟨0, [], []⟩

/-- Registrar::new (src/src/lib.rs:55): record deployment block and periods. -/
def Registrar.new (auction_period reveal_period now : Nat) : Registrar :=
  ⟨now, auction_period, reveal_period, []⟩

/-- Registrar::bid (src/src/lib.rs:69-131).  `hashFn` abstracts DefaultHasher,
`caller` is env::predecessor_account_id(), `now` is env::block_index().
Returns the new state and the boolean result. -/
def Registrar.bid (hashFn : String → Nat) (self : Registrar) (caller : String)
    (now : Nat) (account_id : String) (commitment : String) : Registrar × Bool :=
  let new_bid : Bid := ⟨0, commitment⟩
  let auction := (lookupA self.auctions account_id).getD emptyAuction
  if auction.start_block_height ≠ 0 then
    -- check if auction expired
    if now - auction.start_block_height ≥ self.auction_period then (self, false)
    else
      -- if bidder already exists return false
      let bid0 := (lookupA auction.bids caller).getD emptyBid
      if bid0.commitment.length ≠ 0 then (self, false)
      else
        -- insert into bids map (UnorderedMap::insert persists)
        (⟨self.start_block_height, self.auction_period, self.reveal_period,
          insertA self.auctions account_id
            ⟨auction.start_block_height, insertA auction.bids caller new_bid,
             auction.reveals⟩⟩, true)
  else
    -- calculate number of weeks until the auction started
    let weeks := (now - self.start_block_height) / self.auction_period
    let account_hash := hashFn account_id
    -- check if account_id is open for auction (exact-match gate)
    if weeks ≠ account_hash % 52 then (self, false)
    else
      -- insert this new auction to auction list
      (⟨self.start_block_height, self.auction_period, self.reveal_period,
        insertA self.auctions account_id ⟨now, [(caller, new_bid)], []⟩⟩, true)

/-- Registrar::reveal (src/src/lib.rs:136-196).  `enc` abstracts
`bs58::encode(masked_amount.to_string() + salt)`, `deposit` is
env::attached_deposit().  The source assigns `bid.amount = masked_amount` on a
copy fetched from the bids map and never inserts it back, so the stored Bid is
unchanged; only the reveals insert persists. -/
def Registrar.reveal (enc : String → String) (self : Registrar) (caller : String)
    (now deposit : Nat) (account_id : String) (masked_amount : Nat)
    (salt : String) : Registrar × Bool :=
  -- check if masked amount was deposited
  if masked_amount ≠ deposit then (self, false)
  else
    let auction := (lookupA self.auctions account_id).getD emptyAuction
    if auction.start_block_height ≠ 0 then
      -- check if auction is in progress
      if now - auction.start_block_height < self.auction_period then (self, false)
      -- check if reveal period expired
      else if now - auction.start_block_height ≥ self.auction_period + self.reveal_period then
        (self, false)
      else
        let bid0 := (lookupA auction.bids caller).getD emptyBid
        if bid0.commitment.length ≠ 0 then
          let revealer_commitment := enc (toString masked_amount ++ salt)
          if bid0.commitment ≠ revealer_commitment then (self, false)
          else
            -- bid.amount = masked_amount happens on the copy only;
            -- insert into the reveals map persists
            (⟨self.start_block_height, self.auction_period, self.reveal_period,
              insertA self.auctions account_id
                ⟨auction.start_block_height, auction.bids,
                 insertA auction.reveals caller masked_amount⟩⟩, true)
        else (self, false)
    else (self, false)

/-- Registrar::withdraw (src/src/lib.rs:201-248).  Returns the new state, the
list of issued transfers (recipient, amount) and the boolean result.  The
source zeroes `bid.amount` only on the fetched copy (never inserted back), so
the state is returned unchanged. -/
def Registrar.withdraw (self : Registrar) (caller : String) (now : Nat)
    (account_id : String) : Registrar × List (String × Nat) × Bool :=
  let auction := (lookupA self.auctions account_id).getD emptyAuction
  if auction.start_block_height ≠ 0 then
    -- return false if the auction is in progress
    if now - auction.start_block_height < self.auction_period then (self, [], false)
    -- return false if reveal is in progress and not all bidders revealed
    else if now - auction.start_block_height < self.auction_period + self.reveal_period
        ∧ auction.bids.length ≠ auction.reveals.length then (self, [], false)
    else
      let bid0 := (lookupA auction.bids caller).getD emptyBid
      if bid0.commitment.length ≠ 0 then
        if bid0.amount > 0 then
          -- Promise::transfer(bid.amount), then bid.amount = 0 on the copy
          (self, [(caller, bid0.amount)], true)
        else (self, [], true)
      else (self, [], false)
  else (self, [], false)

/-- Running state of the top-2 loop in Registrar::claim
(src/contracts/rust/src/lib.rs:229-252): highest_bid, second_highest_bid,
winning_account_id and the is_first_check flag. -/
structure Top2 where
  highest : Nat
  second : Nat
  winner : String
  isFirst : Bool
deriving DecidableEq

/-- One iteration of the claim loop over a (revealer, balance) pair. -/
def claimStep (st : Top2) (e : String × Nat) : Top2 :=
  if st.isFirst then
    -- set the highest_bid as the first map entry
    ⟨e.2, st.second, e.1, false⟩
  else if st.second < e.2 then
    if st.highest < e.2 then
      -- swap: incoming value becomes highest, previous highest demotes
      ⟨e.2, st.highest, e.1, false⟩
    else
      ⟨st.highest, e.2, st.winner, st.isFirst⟩
  else st

/-- The whole claim loop, folded over the reveals in iteration order, from
the initial `(0, 0, "", true)` state of the source. -/
def claimTop2 (reveals : List (String × Nat)) : Top2 :=
  reveals.foldl claimStep ⟨0, 0, "", true⟩

/-- Registrar::claim (src/contracts/rust/src/lib.rs:210-285), the only active
claim in the repository.  Returns the (unchanged) state, the boolean result,
and the entity creation effect `some (account_id, public_key)` when the two
promises (create_account, add_full_access_key) are issued.  Note the source
returns `true` at the end regardless of whether the caller is the winner, and
the refund/burn steps are TODO comments (no transfers are issued). -/
def Registrar.claim (self : Registrar) (caller : String) (now : Nat)
    (account_id : String) (public_key : String) :
    Registrar × Bool × Option (String × String) :=
  match lookupA self.auctions account_id with
  | none => (self, false, none)
  | some auction =>
    -- check if auction is in progress
    if now - auction.start_block_height ≤ self.auction_period then (self, false, none)
    -- check if reveal is in progress and not all bidders revealed
    else if now - auction.start_block_height ≤ self.auction_period + self.reveal_period
        ∧ auction.bids.length ≠ auction.reveals.length then (self, false, none)
    else
      let st := claimTop2 auction.reveals
      -- if second_highest_bid = 0 and highest_bid = 0, return false
      if st.second = 0 ∧ st.highest = 0 then (self, false, none)
      else if st.winner = caller then (self, true, some (account_id, public_key))
      else
        -- source falls through to `return true` with no effect
        (self, true, none)

/-- Lookup after insert at the same key yields the inserted value. -/
theorem lookupA_insertA_self {α : Type} (m : List (String × α)) (k : String) (v : α) :
    lookupA (insertA m k v) k = some v := by
  induction m with
  | nil => simp [insertA, lookupA]
  | cons h t ih =>
    obtain ⟨k1, v1⟩ := h
    by_cases hk : k1 = k
    · simp [insertA, hk, lookupA]
    · simp [insertA, hk, lookupA, ih]

/-- Inserting the same binding twice is the same as inserting it once. -/
theorem insertA_idem {α : Type} (m : List (String × α)) (k : String) (v : α) :
    insertA (insertA m k v) k v = insertA m k v := by
  induction m with
  | nil => simp [insertA]
  | cons h t ih =>
    obtain ⟨k1, v1⟩ := h
    by_cases hk : k1 = k
    · simp [insertA, hk]
    · simp [insertA, hk, ih]

/-- Maximum of a list of amounts (0 for the empty list). -/
def maxL (l : List Nat) : Nat := l.foldr max 0

/-- Second-largest amount of a list: the maximum after removing one
occurrence of the maximum (0 when the list has fewer than two elements). -/
def snd2 (l : List Nat) : Nat := maxL (l.erase (maxL l))

theorem maxL_cons (a : Nat) (l : List Nat) : maxL (a :: l) = max a (maxL l) := rfl

theorem foldr_max_eq (l : List Nat) (a : Nat) : l.foldr max a = max (maxL l) a := by
  induction l with
  | nil => simp [maxL]
  | cons x t ih => simp [maxL_cons, List.foldr_cons, ih, max_assoc]

theorem maxL_append (l : List Nat) (v : Nat) : maxL (l ++ [v]) = max (maxL l) v := by
  rw [maxL, List.foldr_append]
  simpa [maxL] using foldr_max_eq l v

theorem le_maxL {a : Nat} {l : List Nat} (h : a ∈ l) : a ≤ maxL l := by
  induction l with
  | nil => cases h
  | cons x t ih =>
    rw [maxL_cons]
    rcases List.mem_cons.mp h with h1 | h2
    · subst h1; exact le_max_left _ _
    · exact le_trans (ih h2) (le_max_right _ _)

theorem maxL_le {l : List Nat} {c : Nat} (h : ∀ a ∈ l, a ≤ c) : maxL l ≤ c := by
  induction l with
  | nil => exact Nat.zero_le c
  | cons x t ih =>
    rw [maxL_cons]
    exact max_le (h x (by simp)) (ih fun a ha => h a (by simp [ha]))

theorem maxL_mem {l : List Nat} (h : l ≠ []) : maxL l ∈ l := by
  induction l with
  | nil => exact absurd rfl h
  | cons x t ih =>
    rw [maxL_cons]
    rcases eq_or_ne t [] with ht | ht
    · subst ht; simp [maxL]
    · rcases le_total (maxL t) x with hle | hle
      · rw [max_eq_left hle]; exact List.mem_cons_self x t
      · rw [max_eq_right hle]; exact List.mem_cons_of_mem x (ih ht)

theorem snd2_le_maxL (l : List Nat) : snd2 l ≤ maxL l := by
  apply maxL_le
  intro a ha
  exact le_maxL (List.erase_subset _ _ ha)

theorem snd2_append_le {P : List Nat} {v : Nat} (hP : P ≠ []) (hv : v ≤ snd2 P) :
    snd2 (P ++ [v]) = snd2 P := by
  have hvm : v ≤ maxL P := le_trans hv (snd2_le_maxL P)
  have hmax : maxL (P ++ [v]) = maxL P := by rw [maxL_append]; exact max_eq_left hvm
  rw [snd2, hmax, List.erase_append_left _ (maxL_mem hP), maxL_append]
  exact max_eq_left hv

theorem snd2_append_mid {P : List Nat} {v : Nat} (hP : P ≠ []) (h1 : snd2 P < v)
    (h2 : v ≤ maxL P) : snd2 (P ++ [v]) = v := by
  have hmax : maxL (P ++ [v]) = maxL P := by rw [maxL_append]; exact max_eq_left h2
  rw [snd2, hmax, List.erase_append_left _ (maxL_mem hP), maxL_append]
  exact max_eq_right (le_of_lt h1)

theorem snd2_append_big {P : List Nat} {v : Nat} (h2 : maxL P < v) :
    snd2 (P ++ [v]) = maxL P := by
  have hnm : v ∉ P := fun hmem => absurd (le_maxL hmem) (not_le.mpr h2)
  have hmax : maxL (P ++ [v]) = v := by rw [maxL_append]; exact max_eq_right (le_of_lt h2)
  rw [snd2, hmax, List.erase_append_right _ hnm]
  simp [List.erase_cons_head]

/-- Invariant carried by the claim loop once the first entry has been
processed: highest is the max and second the second-largest of the processed
values, and the winner is a processed entry holding the highest value. -/
theorem claimLoop_inv (rest : List (String × Nat)) :
    ∀ (P : List (String × Nat)) (st : Top2), P ≠ [] → st.isFirst = false →
    st.highest = maxL (P.map Prod.snd) →
    st.second = snd2 (P.map Prod.snd) →
    (st.winner, st.highest) ∈ P →
    (rest.foldl claimStep st).isFirst = false ∧
    (rest.foldl claimStep st).highest = maxL ((P ++ rest).map Prod.snd) ∧
    (rest.foldl claimStep st).second = snd2 ((P ++ rest).map Prod.snd) ∧
    ((rest.foldl claimStep st).winner, (rest.foldl claimStep st).highest) ∈ P ++ rest := by
  induction rest with
  | nil =>
    intro P st hP hf hh hs hw
    simpa using ⟨hf, hh, hs, hw⟩
  | cons e rest ih =>
    intro P st hP hf hh hs hw
    have hPV : P.map Prod.snd ≠ [] := by simpa using hP
    have hstep : (claimStep st e).isFirst = false ∧
        (claimStep st e).highest = maxL ((P ++ [e]).map Prod.snd) ∧
        (claimStep st e).second = snd2 ((P ++ [e]).map Prod.snd) ∧
        ((claimStep st e).winner, (claimStep st e).highest) ∈ P ++ [e] := by
      simp only [List.map_append, List.map_cons, List.map_nil]
      by_cases hc1 : st.second < e.2
      · by_cases hc2 : st.highest < e.2
        · have hcs : claimStep st e = ⟨e.2, st.highest, e.1, false⟩ := by
            simp [claimStep, hf, hc1, hc2]
          rw [hcs]
          refine ⟨rfl, ?_, ?_, ?_⟩
          · rw [maxL_append, ← hh]
            exact (max_eq_right (le_of_lt hc2)).symm
          · rw [snd2_append_big (hh ▸ hc2), hh]
          · exact List.mem_append_right _ (by simp)
        · have hcs : claimStep st e = ⟨st.highest, e.2, st.winner, st.isFirst⟩ := by
            simp [claimStep, hf, hc1, hc2]
          rw [hcs]
          refine ⟨hf, ?_, ?_, ?_⟩
          · rw [maxL_append, ← hh]
            exact (max_eq_left (not_lt.mp hc2)).symm
          · rw [snd2_append_mid hPV (hs ▸ hc1) (hh ▸ not_lt.mp hc2)]
          · exact List.mem_append_left _ hw
      · have hcs : claimStep st e = st := by
          simp [claimStep, hf, hc1]
        rw [hcs]
        have hv2 : e.2 ≤ maxL (P.map Prod.snd) :=
          le_trans (hs ▸ not_lt.mp hc1) (snd2_le_maxL _)
        refine ⟨hf, ?_, ?_, List.mem_append_left _ hw⟩
        · rw [maxL_append, ← hh]
          exact (max_eq_left (hh ▸ hv2)).symm
        · rw [snd2_append_le hPV (hs ▸ not_lt.mp hc1), hs]
    obtain ⟨k1, k2, k3, k4⟩ := hstep
    have hmain := ih (P ++ [e]) (claimStep st e) (by simp) k1 k2 k3 k4
    rw [List.foldl_cons]
    simpa [List.append_assoc] using hmain

/-- The claim loop computes the max, the second-largest and a maximal winner
for every non-empty reveal list. -/
theorem claimTop2_spec (l : List (String × Nat)) (h : l ≠ []) :
    (claimTop2 l).highest = maxL (l.map Prod.snd) ∧
    (claimTop2 l).second = snd2 (l.map Prod.snd) ∧
    ((claimTop2 l).winner, (claimTop2 l).highest) ∈ l := by
  match l with
  | e :: rest =>
    have h1 : claimStep ⟨0, 0, "", true⟩ e = ⟨e.2, 0, e.1, false⟩ := by
      simp [claimStep]
    have h2 := claimLoop_inv rest [e] (claimStep ⟨0, 0, "", true⟩ e) (by simp)
      (by rw [h1]) (by rw [h1]; simp [maxL]) (by rw [h1]; simp [snd2, maxL])
      (by rw [h1]; simp)
    rw [claimTop2, List.foldl_cons]
    exact ⟨h2.2.1, h2.2.2.1, by simpa using h2.2.2.2⟩

theorem maxL_perm {l1 l2 : List Nat} (h : l1.Perm l2) : maxL l1 = maxL l2 :=
  le_antisymm (maxL_le fun _ ha => le_maxL (h.mem_iff.mp ha))
    (maxL_le fun _ ha => le_maxL (h.mem_iff.mpr ha))

theorem snd2_perm {l1 l2 : List Nat} (h : l1.Perm l2) : snd2 l1 = snd2 l2 := by
  unfold snd2
  rw [maxL_perm h]
  exact maxL_perm (h.erase (maxL l2))

/-- Invariant of the loop state: second never exceeds highest, and second is
still 0 while no entry has been processed. -/
def top2Inv (st : Top2) : Prop :=
  st.second ≤ st.highest ∧ (st.isFirst = true → st.second = 0)

theorem claimStep_inv {st : Top2} (e : String × Nat) (h : top2Inv st) :
    top2Inv (claimStep st e) := by
  obtain ⟨h1, h2⟩ := h
  by_cases hf : st.isFirst = true
  · have hcs : claimStep st e = ⟨e.2, st.second, e.1, false⟩ := by
      simp [claimStep, hf]
    rw [hcs]
    exact ⟨by rw [h2 hf]; exact Nat.zero_le _, fun hx => by rw [h2 hf]⟩
  · have hf2 : st.isFirst = false := by
      revert hf; cases st.isFirst <;> simp
    by_cases hc1 : st.second < e.2
    · by_cases hc2 : st.highest < e.2
      · have hcs : claimStep st e = ⟨e.2, st.highest, e.1, false⟩ := by
          simp [claimStep, hf2, hc1, hc2]
        rw [hcs]
        exact ⟨le_of_lt hc2, fun hx => by cases hx⟩
      · have hcs : claimStep st e = ⟨st.highest, e.2, st.winner, st.isFirst⟩ := by
          simp [claimStep, hf2, hc1, hc2]
        rw [hcs]
        exact ⟨not_lt.mp hc2, fun hx => absurd hx (by simp [hf2])⟩
    · have hcs : claimStep st e = st := by simp [claimStep, hf2, hc1]
      rw [hcs]
      exact ⟨h1, h2⟩

theorem foldl_claimStep_inv : ∀ (l : List (String × Nat)) (st : Top2),
    top2Inv st → top2Inv (l.foldl claimStep st)
  | [], _, h => h
  | e :: t, st, h => foldl_claimStep_inv t (claimStep st e) (claimStep_inv e h)

theorem claimTop2_second_le (l : List (String × Nat)) :
    (claimTop2 l).second ≤ (claimTop2 l).highest :=
  (foldl_claimStep_inv l ⟨0, 0, "", true⟩ ⟨le_refl 0, fun _ => rfl⟩).1

/-- Abstract hash instantiation for concrete scenarios: every identifier
hashes to 43, making week 43 the eligible week. -/
def hash43 : String → Nat := fun _ => 43

/-- Abstract commitment-encoder instantiation for concrete scenarios: the
identity encoding (the scenarios store commitments already in encoded form). -/
def encId : String → String := fun s => s

/-- Deployment at block 2 with auction_period 30 and reveal_period 35 (the
parameters used by the repository's own tests). -/
def reg0 : Registrar := Registrar.new 30 35 2

/-- State after carol's first bid on "id1" at block 1292 (week 43), with the
commitment encoding amount 1000 and salt "123". -/
def reg1 : Registrar := (Registrar.bid hash43 reg0 "carol" 1292 "id1" "1000123").1

/-- State after carol reveals amount 1000 with salt "123" and deposit 1000 at
block 1322 (inside the reveal window of the auction started at 1292). -/
def reg2 : Registrar :=
  (Registrar.reveal encId reg1 "carol" 1322 1000 "id1" 1000 "123").1

/-- Claim C1: conservation of funds over a lifecycle.  Evidence of the code
bug: in the lifecycle bid, then a successful reveal carrying a deposit of
1000, then a settleable withdraw, the withdraw returns true but issues NO
transfer, because the revealed amount was assigned only to a fetched copy of
the Bid and never persisted, so the stored amount is still 0.  The bidder
neither wins a claim nor ever recovers the 1000 deposited at reveal,
contradicting the requirement that every non-winning bidder gets their full
deposit back exactly once. -/
theorem conservation_violated_no_refund :
    (Registrar.reveal encId reg1 "carol" 1322 1000 "id1" 1000 "123").2 = true ∧
    lookupA ((lookupA reg2.auctions "id1").getD emptyAuction).reveals "carol" = some 1000 ∧
    Registrar.withdraw reg2 "carol" 1322 "id1" = (reg2, [], true) := by
  decide

/-- Claim C4: idempotent withdraw.  Evidence of the code bug: after carol's
successful reveal of 1000, the stored bid amount is still 0 (the reveal wrote
the amount to an unpersisted copy), so the first AND the second withdraw call
both return true while issuing no transfer at all: the deposited amount is
transferred zero times, not exactly once, and no call zeroes a previously
positive stored amount. -/
theorem withdraw_transfers_nothing_twice :
    lookupA ((lookupA reg2.auctions "id1").getD emptyAuction).bids "carol"
      = some ⟨0, "1000123"⟩ ∧
    (Registrar.withdraw reg2 "carol" 1322 "id1").2.1 = [] ∧
    (Registrar.withdraw (Registrar.withdraw reg2 "carol" 1322 "id1").1
      "carol" 1322 "id1").2.1 = [] ∧
    (Registrar.withdraw (Registrar.withdraw reg2 "carol" 1322 "id1").1
      "carol" 1322 "id1").2.2 = true := by
  decide

/-- Claim C8 counterexample: carol's reveal succeeds, and an identical second
reveal call by carol for the same identifier ALSO returns true (the source
never consults the reveals map before re-inserting), refuting the claim that
a second reveal by the same party returns false. -/
theorem second_reveal_returns_true :
    Registrar.reveal encId reg1 "carol" 1322 1000 "id1" 1000 "123" = (reg2, true) ∧
    Registrar.reveal encId reg2 "carol" 1322 1000 "id1" 1000 "123" = (reg2, true) := by
  decide

/-- Settleable auction with two reveals: carol revealed 1000, bob 1005. -/
def auctionTwo : Auction :=
  ⟨10, [("carol", ⟨0, "c1"⟩), ("bob", ⟨0, "c2"⟩)], [("carol", 1000), ("bob", 1005)]⟩

/-- Registrar holding auctionTwo under "id1", settleable at block 100. -/
def regTwo : Registrar := ⟨2, 30, 35, [("id1", auctionTwo)]⟩

/-- Claim C3: claim authorization.  Evidence of the code bug: with reveals
carol=1000 and bob=1005 the winner computed from the reveals is bob, yet a
claim call by the non-winner carol returns TRUE (while creating no entity):
the active claim falls through to a final `return true` with no authorization
failure, contradicting the claim that a non-winning caller gets false. -/
theorem claim_nonwinner_returns_true :
    (claimTop2 auctionTwo.reveals).winner = "bob" ∧
    Registrar.claim regTwo "carol" 100 "id1" "pk" = (regTwo, true, none) := by
  decide

/-- Settleable auction with a single positive reveal by bob. -/
def auctionOne : Auction := ⟨10, [("bob", ⟨0, "c2"⟩)], [("bob", 1005)]⟩

/-- Registrar holding auctionOne under "id1", settleable at block 100. -/
def regOne : Registrar := ⟨2, 30, 35, [("id1", auctionOne)]⟩

/-- Claim C6 counterexample: a settleable auction whose computed second
highest bid is 0 (a single reveal of 1005), on which claim by the winner bob
returns TRUE and creates the entity: a zero second highest does not make
claim fail when the highest is positive. -/
theorem claim_zero_second_highest_succeeds :
    (claimTop2 auctionOne.reveals).second = 0 ∧
    Registrar.claim regOne "bob" 100 "id1" "pk" = (regOne, true, some ("id1", "pk")) := by
  decide

/-- State after alice bids on "id1" at block 1292 with an EMPTY commitment. -/
def regEmptyCommit : Registrar := (Registrar.bid hash43 reg0 "alice" 1292 "id1" "").1

/-- Claim C7 counterexample: alice bids with an empty commitment and her Bid
is recorded; a second bid by alice in the same Bidding phase returns TRUE and
replaces the recorded Bid, refuting the claim that a second bid by a party
with a recorded Bid always fails and leaves the first Bid unchanged. -/
theorem second_bid_after_empty_commitment_succeeds :
    (Registrar.bid hash43 reg0 "alice" 1292 "id1" "").2 = true ∧
    lookupA ((lookupA regEmptyCommit.auctions "id1").getD emptyAuction).bids "alice"
      = some ⟨0, ""⟩ ∧
    (Registrar.bid hash43 regEmptyCommit "alice" 1300 "id1" "c2").2 = true ∧
    lookupA ((lookupA (Registrar.bid hash43 regEmptyCommit "alice" 1300 "id1" "c2").1.auctions
      "id1").getD emptyAuction).bids "alice" = some ⟨0, "c2"⟩ := by
  decide

/-- Claim C2: for every non-empty reveal list, the streaming claim loop ends
with highest equal to the maximum revealed value, second equal to the
second-largest revealed value (the maximum after removing one occurrence of
the maximum; 0 when there is only one reveal), and the winner a party whose
revealed value is the maximum; moreover highest and second are the same for
every iteration order (any permutation of the reveals). -/
theorem claim_top2_winner_determination (l : List (String × Nat)) (h : l ≠ []) :
    (claimTop2 l).highest = maxL (l.map Prod.snd) ∧
    (claimTop2 l).second = snd2 (l.map Prod.snd) ∧
    ((claimTop2 l).winner, (claimTop2 l).highest) ∈ l ∧
    ∀ l2 : List (String × Nat), l.Perm l2 →
      (claimTop2 l2).highest = (claimTop2 l).highest ∧
      (claimTop2 l2).second = (claimTop2 l).second := by
  obtain ⟨hh, hs, hw⟩ := claimTop2_spec l h
  refine ⟨hh, hs, hw, fun l2 hperm => ?_⟩
  have hl2 : l2 ≠ [] := by
    intro h2
    rw [h2] at hperm
    exact h hperm.eq_nil
  obtain ⟨hh2, hs2, _⟩ := claimTop2_spec l2 hl2
  have hprm := hperm.map Prod.snd
  constructor
  · rw [hh2, hh, maxL_perm hprm]
  · rw [hs2, hs, snd2_perm hprm]

/-- Witness for C2 at the concrete reveal list [(a,1000), (b,1005)]. -/
theorem claim_top2_winner_determination_witness :
    (claimTop2 [("a", 1000), ("b", 1005)]).highest
      = maxL ([("a", 1000), ("b", 1005)].map Prod.snd) ∧
    (claimTop2 [("a", 1000), ("b", 1005)]).second
      = snd2 ([("a", 1000), ("b", 1005)].map Prod.snd) ∧
    ((claimTop2 [("a", 1000), ("b", 1005)]).winner,
      (claimTop2 [("a", 1000), ("b", 1005)]).highest) ∈ [("a", 1000), ("b", 1005)] := by
  obtain ⟨h1, h2, h3, _⟩ :=
    claim_top2_winner_determination [("a", 1000), ("b", 1005)] (by decide)
  exact ⟨h1, h2, h3⟩

/-- Claim C5: eligibility gate.  For every identifier with no existing
auction and every current block, the first bid succeeds iff the identifier's
hash modulo 52 equals the number of whole bid periods elapsed since launch
(exact equality, so the identifier is biddable in exactly one period). -/
theorem bid_eligibility_gate (hashFn : String → Nat) (reg : Registrar)
    (caller : String) (now : Nat) (account_id commitment : String)
    (hnone : lookupA reg.auctions account_id = none) :
    (Registrar.bid hashFn reg caller now account_id commitment).2 = true ↔
      (now - reg.start_block_height) / reg.auction_period = hashFn account_id % 52 := by
  unfold Registrar.bid
  rw [hnone]
  by_cases hw : (now - reg.start_block_height) / reg.auction_period
      = hashFn account_id % 52
  · simp [emptyAuction, hw]
  · simp [emptyAuction, hw]

/-- Witness for C5: on the freshly deployed registrar the first bid at block
1292 succeeds exactly because week 43 matches the hash modulo 52. -/
theorem bid_eligibility_gate_witness :
    (Registrar.bid hash43 reg0 "carol" 1292 "id1" "1000123").2 = true ↔
      (1292 - reg0.start_block_height) / reg0.auction_period = hash43 "id1" % 52 :=
  bid_eligibility_gate hash43 reg0 "carol" 1292 "id1" "1000123" (by decide)

/-- Claim C6 amended: if the computed HIGHEST revealed value is 0 (hence the
second highest is 0 as well, i.e. there is no positive reveal), claim returns
false for every caller, creates no entity and leaves the state unchanged.
(The original claim asserted this whenever the second highest alone is 0,
which the counterexample refutes.) -/
theorem claim_all_zero_reveals_fails (reg : Registrar) (caller : String)
    (now : Nat) (account_id public_key : String) (a : Auction)
    (ha : lookupA reg.auctions account_id = some a)
    (h0 : (claimTop2 a.reveals).highest = 0) :
    Registrar.claim reg caller now account_id public_key = (reg, false, none) := by
  have hs : (claimTop2 a.reveals).second = 0 :=
    Nat.le_antisymm (h0 ▸ claimTop2_second_le a.reveals) (Nat.zero_le _)
  unfold Registrar.claim
  rw [ha]
  by_cases h1 : now - a.start_block_height ≤ reg.auction_period
  · simp [h1]
  · by_cases h2 : now - a.start_block_height ≤ reg.auction_period + reg.reveal_period
        ∧ a.bids.length ≠ a.reveals.length
    · simp [h1, h2]
    · simp [h1, h2, hs, h0]

/-- Witness for C6 amended: an auction whose only reveal is 0 makes claim
fail for a concrete caller. -/
theorem claim_all_zero_reveals_fails_witness :
    Registrar.claim (⟨2, 30, 35, [("id1", ⟨10, [("a", ⟨0, "c"⟩)], [("a", 0)]⟩)]⟩ : Registrar)
      "a" 100 "id1" "pk"
      = ((⟨2, 30, 35, [("id1", ⟨10, [("a", ⟨0, "c"⟩)], [("a", 0)]⟩)]⟩ : Registrar),
         false, none) :=
  claim_all_zero_reveals_fails _ "a" 100 "id1" "pk"
    ⟨10, [("a", ⟨0, "c"⟩)], [("a", 0)]⟩ (by decide) (by decide)

/-- Claim C7 amended: a second bid during the same Bidding phase by a party
whose recorded Bid has a NON-EMPTY commitment returns false and leaves the
state, hence the first recorded Bid, unchanged.  (A Bid recorded with an
empty commitment is treated as absent, as the counterexample shows.) -/
theorem no_double_bid_nonempty_commitment (hashFn : String → Nat)
    (reg : Registrar) (caller : String) (now : Nat)
    (account_id commitment : String) (a : Auction) (b : Bid)
    (ha : lookupA reg.auctions account_id = some a)
    (h0 : a.start_block_height ≠ 0)
    (hph : now - a.start_block_height < reg.auction_period)
    (hb : lookupA a.bids caller = some b)
    (hc : b.commitment.length ≠ 0) :
    Registrar.bid hashFn reg caller now account_id commitment = (reg, false) := by
  have hnl : ¬ now - a.start_block_height ≥ reg.auction_period := not_le.mpr hph
  simp [Registrar.bid, ha, h0, hnl, hb, hc]

/-- Witness for C7 amended: carol, holding a recorded non-empty commitment,
bids again during the Bidding phase and is rejected with unchanged state. -/
theorem no_double_bid_nonempty_commitment_witness :
    Registrar.bid hash43 reg1 "carol" 1300 "id1" "other" = (reg1, false) :=
  no_double_bid_nonempty_commitment hash43 reg1 "carol" 1300 "id1" "other"
    ⟨1292, [("carol", ⟨0, "1000123"⟩)], []⟩ ⟨0, "1000123"⟩
    (by decide) (by decide) (by decide) (by decide) (by decide)

/-- Claim C8 amended: reveal performs no double-reveal check.  After a
successful reveal, an identical second reveal call by the same party (same
amount, salt and deposit, within the same reveal window) returns true again
and leaves the state unchanged: re-revealing is an idempotent no-op, not an
error.  (The original claim that the second reveal returns false is refuted
by the counterexample.) -/
theorem reveal_idempotent_repeat (enc : String → String) (reg : Registrar)
    (caller : String) (now deposit : Nat) (account_id : String)
    (amt : Nat) (salt : String) (a : Auction) (b : Bid)
    (ha : lookupA reg.auctions account_id = some a)
    (h0 : a.start_block_height ≠ 0)
    (hp1 : ¬ now - a.start_block_height < reg.auction_period)
    (hp2 : ¬ now - a.start_block_height ≥ reg.auction_period + reg.reveal_period)
    (hd : amt = deposit)
    (hb : lookupA a.bids caller = some b)
    (hc : b.commitment.length ≠ 0)
    (hm : b.commitment = enc (toString amt ++ salt)) :
    (Registrar.reveal enc reg caller now deposit account_id amt salt).2 = true ∧
    Registrar.reveal enc
      (Registrar.reveal enc reg caller now deposit account_id amt salt).1
      caller now deposit account_id amt salt
      = ((Registrar.reveal enc reg caller now deposit account_id amt salt).1, true) := by
  have hnd : ¬ amt ≠ deposit := by simp [hd]
  have hnm : ¬ b.commitment ≠ enc (toString amt ++ salt) := by simp [hm]
  have hfirst : Registrar.reveal enc reg caller now deposit account_id amt salt
      = (⟨reg.start_block_height, reg.auction_period, reg.reveal_period,
          insertA reg.auctions account_id
            ⟨a.start_block_height, a.bids, insertA a.reveals caller amt⟩⟩, true) := by
    simp [Registrar.reveal, hnd, ha, h0, hp1, hp2, hb, hc, hnm]
  refine ⟨by rw [hfirst], ?_⟩
  rw [hfirst]
  have ha2 : lookupA (insertA reg.auctions account_id
      ⟨a.start_block_height, a.bids, insertA a.reveals caller amt⟩) account_id
      = some ⟨a.start_block_height, a.bids, insertA a.reveals caller amt⟩ :=
    lookupA_insertA_self _ _ _
  simp [Registrar.reveal, hnd, ha2, h0, hp1, hp2, hb, hc, hnm, insertA_idem]

/-- Witness for C8 amended: carol's concrete reveal at block 1322 succeeds
and its identical repetition returns true on the unchanged state. -/
theorem reveal_idempotent_repeat_witness :
    (Registrar.reveal encId reg1 "carol" 1322 1000 "id1" 1000 "123").2 = true ∧
    Registrar.reveal encId
      (Registrar.reveal encId reg1 "carol" 1322 1000 "id1" 1000 "123").1
      "carol" 1322 1000 "id1" 1000 "123"
      = ((Registrar.reveal encId reg1 "carol" 1322 1000 "id1" 1000 "123").1, true) :=
  reveal_idempotent_repeat encId reg1 "carol" 1322 1000 "id1" 1000 "123"
    ⟨1292, [("carol", ⟨0, "1000123"⟩)], []⟩ ⟨0, "1000123"⟩
    (by decide) (by decide) (by decide) (by decide) (by decide)
    (by decide) (by decide) (by decide)

/-- Claim C9: reveal phase window.  For an existing auction, whenever the
elapsed time since the auction start lies outside the half-open window from
bid_period to bid_period + reveal_period, reveal returns false (regardless of
deposit, commitment and salt) and leaves the state unchanged; hence reveal
can succeed only inside the window. -/
theorem reveal_phase_window (enc : String → String) (reg : Registrar)
    (caller : String) (now deposit : Nat) (account_id : String)
    (amt : Nat) (salt : String) (a : Auction)
    (ha : lookupA reg.auctions account_id = some a)
    (h0 : a.start_block_height ≠ 0)
    (hout : now - a.start_block_height < reg.auction_period ∨
      reg.auction_period + reg.reveal_period ≤ now - a.start_block_height) :
    Registrar.reveal enc reg caller now deposit account_id amt salt = (reg, false) := by
  unfold Registrar.reveal
  by_cases hd : amt ≠ deposit
  · rw [if_pos hd]
  · rw [if_neg hd]
    rcases hout with hlt | hge
    · simp [ha, h0, hlt]
    · have hnl : ¬ now - a.start_block_height < reg.auction_period :=
        not_lt.mpr (le_trans (Nat.le_add_right _ _) hge)
      simp [ha, h0, hnl, hge]

/-- Witness for C9: carol's correct reveal attempted at block 1300 (elapsed
8, still Bidding) is rejected with unchanged state. -/
theorem reveal_phase_window_witness :
    Registrar.reveal encId reg1 "carol" 1300 1000 "id1" 1000 "123" = (reg1, false) :=
  reveal_phase_window encId reg1 "carol" 1300 1000 "id1" 1000 "123"
    ⟨1292, [("carol", ⟨0, "1000123"⟩)], []⟩ (by decide) (by decide)
    (Or.inl (by decide))

/-- Claim C10: a bid recorded with an empty commitment is invisible.  With an
auction in Bidding phase and the caller's stored Bid carrying a zero-length
commitment, a second bid by the same party succeeds (the duplicate-bid check
passes), while reveal and withdraw by that party return false at every block,
deposit, amount and salt: all three operations test presence of a bid via a
non-empty stored commitment. -/
theorem empty_commitment_bid_invisible (hashFn : String → Nat)
    (enc : String → String) (reg : Registrar) (caller : String) (now : Nat)
    (account_id commitment2 : String) (a : Auction) (amt0 : Nat)
    (ha : lookupA reg.auctions account_id = some a)
    (h0 : a.start_block_height ≠ 0)
    (hph : now - a.start_block_height < reg.auction_period)
    (hb : lookupA a.bids caller = some ⟨amt0, ""⟩) :
    (Registrar.bid hashFn reg caller now account_id commitment2).2 = true ∧
    (∀ now2 dep amt salt,
      (Registrar.reveal enc reg caller now2 dep account_id amt salt).2 = false) ∧
    (∀ now2, (Registrar.withdraw reg caller now2 account_id).2.2 = false) := by
  have hnl : ¬ now - a.start_block_height ≥ reg.auction_period := not_le.mpr hph
  refine ⟨?_, ?_, ?_⟩
  · simp [Registrar.bid, ha, h0, hnl, hb]
  · intro now2 dep amt salt
    unfold Registrar.reveal
    by_cases hd : amt ≠ dep
    · simp [hd]
    · by_cases hw1 : now2 - a.start_block_height < reg.auction_period
      · simp [hd, ha, h0, hw1]
      · by_cases hw2 : now2 - a.start_block_height
            ≥ reg.auction_period + reg.reveal_period
        · simp [hd, ha, h0, hw1, hw2]
        · simp [hd, ha, h0, hw1, hw2, hb]
  · intro now2
    unfold Registrar.withdraw
    by_cases hw1 : now2 - a.start_block_height < reg.auction_period
    · simp [ha, h0, hw1]
    · by_cases hw2 : now2 - a.start_block_height
          < reg.auction_period + reg.reveal_period ∧ a.bids.length ≠ a.reveals.length
      · simp [ha, h0, hw1, hw2]
      · simp [ha, h0, hw1, hw2, hb]

/-- Witness for C10 at a concrete state with an empty-commitment bid. -/
theorem empty_commitment_bid_invisible_witness :
    (Registrar.bid hash43 regEmptyCommit "alice" 1300 "id1" "c2").2 = true ∧
    (Registrar.reveal encId regEmptyCommit "alice" 1322 5 "id1" 5 "s").2 = false ∧
    (Registrar.withdraw regEmptyCommit "alice" 1400 "id1").2.2 = false := by
  have h := empty_commitment_bid_invisible hash43 encId regEmptyCommit "alice" 1300
    "id1" "c2" ⟨1292, [("alice", ⟨0, ""⟩)], []⟩ 0
    (by decide) (by decide) (by decide) (by decide)
  exact ⟨h.1, h.2.1 1322 5 5 "s", h.2.2 1400⟩
